import Mathlib

/-!
Verification of the mcp-snmp SNMP polling server core against its
natural-language specification.

The definitions below are a shallow embedding of the Go sources:
  * `config` package (Auth profiles, validation in `UnmarshalYAML`,
    `ConfigureSNMP`),
  * `main.go` (`NewGoSNMP`: scheme/host/port resolution and session
    construction, including a model of Go's `net.SplitHostPort` and
    `strconv.Atoi`),
  * `tools.go` (`SnmpGet`, `SnmpWalk`, `formatValue`, including a model of
    Go's UTF-8 rune iteration used by the OctetString printable check).

Go machine integers are modelled as `Int`/`Nat` with explicit `% 2^w`
where the code converts (e.g. `uint16(p)`), byte slices as `List Nat`,
and Go strings as Lean `String`/`List Char`.  Go `switch` statements are
rendered as if-chains, which is their sequential semantics.
-/

/- ---------------------------------------------------------------------
   config package: the Auth profile (config struct `Auth`)
--------------------------------------------------------------------- -/

/-- Model of the `Auth` struct of the `config` package.  `Secret` fields
are plain strings; `version` is a Go `int`. -/
structure Auth where
  community : String
  securityLevel : String
  username : String
  password : String
  authProtocol : String
  privProtocol : String
  privPassword : String
  contextName : String
  version : Int
deriving DecidableEq, Repr

/-- Model of `config.DefaultAuth`: the value a profile holds before the
YAML fields overwrite it (defaulting step of `UnmarshalYAML`). -/
def DefaultAuth : Auth :=
  { community := "public"
    securityLevel := "noAuthNoPriv"
    username := ""
    password := ""
    authProtocol := "MD5"
    privProtocol := "DES"
    privPassword := ""
    contextName := ""
    version := 2 }

/-- The auth-protocol enumeration accepted by `UnmarshalYAML`. -/
def authProtoOK (c : Auth) : Prop :=
  c.authProtocol = "MD5" ∨ c.authProtocol = "SHA" ∨ c.authProtocol = "SHA224" ∨
    c.authProtocol = "SHA256" ∨ c.authProtocol = "SHA384" ∨ c.authProtocol = "SHA512"

/-- The priv-protocol enumeration accepted by `UnmarshalYAML`. -/
def privProtoOK (c : Auth) : Prop :=
  c.privProtocol = "DES" ∨ c.privProtocol = "AES" ∨ c.privProtocol = "AES192" ∨
    c.privProtocol = "AES192C" ∨ c.privProtocol = "AES256" ∨ c.privProtocol = "AES256C"

instance (c : Auth) : Decidable (authProtoOK c) := by unfold authProtoOK; infer_instance

instance (c : Auth) : Decidable (privProtoOK c) := by unfold privProtoOK; infer_instance

/-- The `noAuthNoPriv` tier of the `UnmarshalYAML` version-3 switch (the
final fallthrough target): a non-empty username is required. -/
def checkNoAuthNoPriv (c : Auth) : Except String Unit :=
  if c.username = "" then
    .error "auth username is missing, required for SNMPv3"
  else .ok ()

/-- The `authNoPriv` tier of the `UnmarshalYAML` version-3 switch:
password and auth-protocol checks, then fallthrough to
`checkNoAuthNoPriv`. -/
def checkAuthNoPriv (c : Auth) : Except String Unit :=
  if c.password = "" then
    .error "auth password is missing, required for SNMPv3 with auth"
  else if c.authProtocol ≠ "MD5" ∧ c.authProtocol ≠ "SHA" ∧ c.authProtocol ≠ "SHA224" ∧
      c.authProtocol ≠ "SHA256" ∧ c.authProtocol ≠ "SHA384" ∧ c.authProtocol ≠ "SHA512" then
    .error "auth protocol must be SHA or MD5"
  else checkNoAuthNoPriv c

/-- The `authPriv` tier of the `UnmarshalYAML` version-3 switch: priv
password and priv-protocol checks, then fallthrough to
`checkAuthNoPriv`. -/
def checkAuthPriv (c : Auth) : Except String Unit :=
  if c.privPassword = "" then
    .error "priv password is missing, required for SNMPv3 with priv"
  else if c.privProtocol ≠ "DES" ∧ c.privProtocol ≠ "AES" ∧ c.privProtocol ≠ "AES192" ∧
      c.privProtocol ≠ "AES192C" ∧ c.privProtocol ≠ "AES256" ∧ c.privProtocol ≠ "AES256C" then
    .error "priv protocol must be DES or AES"
  else checkAuthNoPriv c

/-- Validation performed by `Auth.UnmarshalYAML` after the defaulted
profile has been overwritten by the YAML fields.  The Go `switch` with
`fallthrough` is rendered as the tier functions above; its sequential
case selection is the if-chain below. -/
def validateAuth (c : Auth) : Except String Unit :=
  if c.version < 1 ∨ c.version > 3 then
    .error "SNMP version must be 1, 2 or 3"
  else if c.version = 3 then
    if c.securityLevel = "authPriv" then checkAuthPriv c
    else if c.securityLevel = "authNoPriv" then checkAuthNoPriv c
    else if c.securityLevel = "noAuthNoPriv" then checkNoAuthNoPriv c
    else .error "security level must be one of authPriv, authNoPriv or noAuthNoPriv"
  else .ok ()

theorem checkNoAuthNoPriv_ok (c : Auth) :
    checkNoAuthNoPriv c = .ok () ↔ c.username ≠ "" := by
  unfold checkNoAuthNoPriv
  split_ifs with h <;> simp [h]

theorem checkAuthNoPriv_ok (c : Auth) :
    checkAuthNoPriv c = .ok () ↔ c.password ≠ "" ∧ authProtoOK c ∧ c.username ≠ "" := by
  unfold checkAuthNoPriv
  split_ifs with h1 h2
  · simp [h1]
  · simp only [authProtoOK]
    constructor
    · intro hc; exact absurd hc (by simp)
    · intro hc; exact absurd hc.2.1 (by tauto)
  · rw [checkNoAuthNoPriv_ok]
    simp only [authProtoOK]
    constructor
    · intro hu; exact ⟨h1, by tauto, hu⟩
    · intro hc; exact hc.2.2

theorem checkAuthPriv_ok (c : Auth) :
    checkAuthPriv c = .ok () ↔
      c.privPassword ≠ "" ∧ privProtoOK c ∧ c.password ≠ "" ∧ authProtoOK c ∧
        c.username ≠ "" := by
  unfold checkAuthPriv
  split_ifs with h1 h2
  · simp [h1]
  · simp only [privProtoOK]
    constructor
    · intro hc; exact absurd hc (by simp)
    · intro hc; exact absurd hc.2.1 (by tauto)
  · rw [checkAuthNoPriv_ok]
    simp only [privProtoOK]
    constructor
    · intro hc; exact ⟨h1, by tauto, hc⟩
    · intro hc; exact hc.2.2

/-- Modelled from the spec (claim C1): the cumulative requirements the
specification states for a version-3 profile, per security level. -/
def specV3Requirements (c : Auth) : Prop :=
  (c.securityLevel = "authPriv" ∧ c.privPassword ≠ "" ∧ privProtoOK c ∧
    c.password ≠ "" ∧ authProtoOK c ∧ c.username ≠ "") ∨
  (c.securityLevel = "authNoPriv" ∧ c.password ≠ "" ∧ authProtoOK c ∧
    c.username ≠ "") ∨
  (c.securityLevel = "noAuthNoPriv" ∧ c.username ≠ "")

instance (c : Auth) : Decidable (specV3Requirements c) := by
  unfold specV3Requirements; infer_instance

/-- C1: after defaulting, a version outside {1,2,3} fails validation;
version 1 or 2 always validates regardless of credential fields; and a
version-3 profile validates exactly when the cumulative security-level
requirements of the specification hold (any other security level
failing). -/
theorem c1_validateAuth_characterization (c : Auth) :
    ((c.version < 1 ∨ 3 < c.version) → ∃ e, validateAuth c = .error e) ∧
    ((c.version = 1 ∨ c.version = 2) → validateAuth c = .ok ()) ∧
    (c.version = 3 → (validateAuth c = .ok () ↔ specV3Requirements c)) := by
  refine ⟨?_, ?_, ?_⟩
  · intro h
    refine ⟨"SNMP version must be 1, 2 or 3", ?_⟩
    unfold validateAuth
    rw [if_pos (by tauto : c.version < 1 ∨ c.version > 3)]
  · intro h
    unfold validateAuth
    rw [if_neg (by omega : ¬(c.version < 1 ∨ c.version > 3)),
      if_neg (by omega : ¬(c.version = 3))]
  · intro h
    unfold validateAuth
    rw [if_neg (by omega : ¬(c.version < 1 ∨ c.version > 3)), if_pos h]
    have hd1 : ("authPriv" : String) ≠ "authNoPriv" := by decide
    have hd2 : ("authPriv" : String) ≠ "noAuthNoPriv" := by decide
    have hd3 : ("authNoPriv" : String) ≠ "noAuthNoPriv" := by decide
    split_ifs with hsl1 hsl2 hsl3
    · rw [checkAuthPriv_ok]
      unfold specV3Requirements
      constructor
      · intro hc; exact Or.inl ⟨hsl1, hc⟩
      · rintro (⟨_, hc⟩ | ⟨hl, _⟩ | ⟨hl, _⟩)
        · exact hc
        · exact absurd (hsl1 ▸ hl) hd1
        · exact absurd (hsl1 ▸ hl) hd2
    · rw [checkAuthNoPriv_ok]
      unfold specV3Requirements
      constructor
      · intro hc; exact Or.inr (Or.inl ⟨hsl2, hc⟩)
      · rintro (⟨hl, _⟩ | ⟨_, hc⟩ | ⟨hl, _⟩)
        · exact absurd (hsl2 ▸ hl) hsl1
        · exact hc
        · exact absurd (hsl2 ▸ hl) hd3
    · rw [checkNoAuthNoPriv_ok]
      unfold specV3Requirements
      constructor
      · intro hc; exact Or.inr (Or.inr ⟨hsl3, hc⟩)
      · rintro (⟨hl, _⟩ | ⟨hl, _⟩ | ⟨_, hc⟩)
        · exact absurd (hsl3 ▸ hl) hsl1
        · exact absurd (hsl3 ▸ hl) hsl2
        · exact hc
    · unfold specV3Requirements
      constructor
      · intro hc; exact absurd hc (by simp)
      · rintro (⟨hl, _⟩ | ⟨hl, _⟩ | ⟨hl, _⟩)
        · exact absurd hl hsl1
        · exact absurd hl hsl2
        · exact absurd hl hsl3

/-- C1 witness: a concrete version-3 `noAuthNoPriv` profile with a
username validates, and a concrete version-0 profile is rejected. -/
theorem c1_validateAuth_characterization_witness :
    validateAuth { DefaultAuth with version := 3, username := "u" } = .ok () ∧
    (∃ e, validateAuth { DefaultAuth with version := 0 } = .error e) := by
  constructor
  · exact ((c1_validateAuth_characterization
      { DefaultAuth with version := 3, username := "u" }).2.2 rfl).mpr
      (Or.inr (Or.inr ⟨rfl, by decide⟩))
  · exact (c1_validateAuth_characterization
      { DefaultAuth with version := 0 }).1 (by left; decide)

/- ---------------------------------------------------------------------
   main.go, NewGoSNMP: target address resolution.
   Models of the library routines it calls: strings.SplitN(target,
   "://", 2), net.SplitHostPort and strconv.Atoi.
--------------------------------------------------------------------- -/

/-- Model of `strings.SplitN(target, "://", 2)`: `some (before, after)`
at the first occurrence of `"://"`, `none` when the separator does not
occur (the `len(s) == 2` test in the Go code). -/
def splitOn3 : List Char → Option (List Char × List Char)
  | [] => none
  | c :: rest =>
    if c = ':' ∧ rest.head? = some '/' ∧ (rest.drop 1).head? = some '/' then
      some ([], rest.drop 2)
    else
      match splitOn3 rest with
      | some (pre, post) => some (c :: pre, post)
      | none => none

/-- Split a list at the first occurrence of `t` (Go `IndexByteString`
expressed as the pieces around the found byte). -/
def splitFirst (t : Char) : List Char → Option (List Char × List Char)
  | [] => none
  | c :: rest =>
    if c = t then some ([], rest)
    else
      match splitFirst t rest with
      | some (pre, post) => some (c :: pre, post)
      | none => none

/-- Split a list at the last `':'` (the `last(hostport, ':')` step of
Go's `net.SplitHostPort`, expressed as the pieces around that byte). -/
def splitLastColon : List Char → Option (List Char × List Char)
  | [] => none
  | c :: rest =>
    match splitLastColon rest with
    | some (pre, post) => some (c :: pre, post)
    | none => if c = ':' then some ([], rest) else none

/-- Model of Go `net.SplitHostPort`: `some (host, port)` exactly when
the Go function returns `err == nil`.  Mirrors the stdlib: a last colon
must exist; a leading `'['` selects the bracketed (IPv6) form whose
`']'` must be immediately followed by the last colon; otherwise the host
part may contain no further colon; stray brackets are rejected. -/
def splitHostPort (s : List Char) : Option (List Char × List Char) :=
  match splitLastColon s with
  | none => none
  | some (pre, post) =>
    if s.head? = some '[' then
      match splitFirst ']' s with
      | none => none
      | some (bhead, btail) =>
        if btail = [] then none
        else if btail = ':' :: post then
          if '[' ∈ s.drop 1 then none
          else if ']' ∈ btail then none
          else some (bhead.drop 1, post)
        else none
    else
      if ':' ∈ pre then none
      else if '[' ∈ s then none
      else if ']' ∈ s then none
      else some (pre, post)

/-- Decimal digit test for `strconv.Atoi`. -/
def isDigitCh (c : Char) : Bool := 48 ≤ c.toNat ∧ c.toNat ≤ 57

/-- Value of a digit string. -/
def digitsToNat (l : List Char) : Nat := l.foldl (fun a c => a * 10 + (c.toNat - 48)) 0

/-- Model of Go `strconv.Atoi` (= `ParseInt(s, 10, 0)` with 64-bit
`int`): optional sign, at least one digit, no other characters, value
within the `int64` range; `none` exactly when Go returns an error. -/
def goAtoi (s : List Char) : Option Int :=
  let neg : Bool := decide (s.head? = some '-')
  let ds := if s.head? = some '+' ∨ s.head? = some '-' then s.drop 1 else s
  if ds = [] then none
  else if ds.all isDigitCh then
    let v : Int := if neg then -(digitsToNat ds : Int) else (digitsToNat ds : Int)
    if -(2 ^ 63) ≤ v ∧ v ≤ 2 ^ 63 - 1 then some v else none
  else none

/-- The scheme-splitting prelude of `NewGoSNMP` (lines 56-60):
transport defaults to `"udp"` and a `scheme://` prefix, when present,
overrides it and strips itself from the target. -/
def schemeSplit (t : List Char) : List Char × List Char :=
  match splitOn3 t with
  | some p => p
  | none => ("udp".toList, t)

/-- The address-resolution portion of `NewGoSNMP` (lines 55-69):
transport/host/port from the target string.  `uint16(p)` is the Go
conversion, i.e. reduction mod `2^16`. -/
def resolveAddress (target : String) : Except String (String × String × Nat) :=
  let sp := schemeSplit target.toList
  match splitHostPort sp.2 with
  | some (host, portStr) =>
    match goAtoi portStr with
    | some p => .ok (⟨sp.1⟩, ⟨host⟩, (p % 65536).toNat)
    | none => .error ("error converting port number to int for target " ++ (⟨host⟩ : String))
  | none => .ok (⟨sp.1⟩, ⟨sp.2⟩, 161)

theorem splitOn3_eq_none {t : List Char} (h : ':' ∉ t) : splitOn3 t = none := by
  induction t with
  | nil => rfl
  | cons c rest ih =>
    simp only [List.mem_cons, not_or] at h
    unfold splitOn3
    rw [if_neg (fun hx => h.1 hx.1.symm)]
    rw [ih h.2]

theorem splitOn3_append {s r : List Char} (h : ':' ∉ s) :
    splitOn3 (s ++ ':' :: '/' :: '/' :: r) = some (s, r) := by
  induction s with
  | nil => simp [splitOn3]
  | cons c rest ih =>
    simp only [List.mem_cons, not_or] at h
    simp only [List.cons_append]
    unfold splitOn3
    rw [if_neg (fun hx => h.1 hx.1.symm)]
    rw [ih h.2]

theorem splitOn3_append_noslash {h p : List Char} (hh : ':' ∉ h) (hp : ':' ∉ p)
    (hs : p.head? ≠ some '/') : splitOn3 (h ++ ':' :: p) = none := by
  induction h with
  | nil =>
    unfold splitOn3
    simp only [List.nil_append]
    rw [if_neg (fun hx => hs hx.2.1)]
    rw [splitOn3_eq_none hp]
  | cons c rest ih =>
    simp only [List.mem_cons, not_or] at hh
    simp only [List.cons_append]
    unfold splitOn3
    rw [if_neg (fun hx => hh.1 hx.1.symm)]
    rw [ih hh.2]

theorem splitLastColon_eq_none {t : List Char} (h : ':' ∉ t) : splitLastColon t = none := by
  induction t with
  | nil => rfl
  | cons c rest ih =>
    simp only [List.mem_cons, not_or] at h
    unfold splitLastColon
    rw [ih h.2]
    rw [if_neg (fun hx => h.1 hx.symm)]

theorem splitLastColon_append {h p : List Char} (hp : ':' ∉ p) :
    splitLastColon (h ++ ':' :: p) = some (h, p) := by
  induction h with
  | nil =>
    unfold splitLastColon
    simp only [List.nil_append]
    rw [splitLastColon_eq_none hp]
    simp only [if_true]
  | cons c rest ih =>
    simp only [List.cons_append]
    unfold splitLastColon
    rw [ih]

theorem splitHostPort_eq_none {s : List Char} (h : ':' ∉ s) : splitHostPort s = none := by
  simp only [splitHostPort, splitLastColon_eq_none h]

/-- On a clean `host ++ ":" ++ port` (no colon or bracket characters in
either piece), the `SplitHostPort` model returns the two pieces. -/
theorem splitHostPort_append {h p : List Char}
    (hh1 : ':' ∉ h) (hh2 : '[' ∉ h) (hh3 : ']' ∉ h)
    (hp1 : ':' ∉ p) (hp2 : '[' ∉ p) (hp3 : ']' ∉ p) :
    splitHostPort (h ++ ':' :: p) = some (h, p) := by
  have hhead : (h ++ ':' :: p).head? ≠ some '[' := by
    cases h with
    | nil => simp
    | cons c rest =>
      simp only [List.cons_append, List.head?_cons, ne_eq, Option.some.injEq]
      intro hc
      exact hh2 (by simp [hc])
  simp only [splitHostPort, splitLastColon_append hp1]
  rw [if_neg hhead]
  rw [if_neg hh1]
  rw [if_neg (by simp [hh2, hp2] : ¬ '[' ∈ h ++ ':' :: p)]
  rw [if_neg (by simp [hh3, hp3] : ¬ ']' ∈ h ++ ':' :: p)]

theorem string_mk_toList (s : String) : (⟨s.toList⟩ : String) = s := rfl

theorem string_toList_append (a b : String) : (a ++ b).toList = a.toList ++ b.toList := rfl

theorem all_digits_chars {l : List Char} (hl : l.all isDigitCh = true) :
    ':' ∉ l ∧ '[' ∉ l ∧ ']' ∉ l ∧ ∀ c ∈ l, c ≠ '/' := by
  simp only [List.all_eq_true] at hl
  refine ⟨fun hc => ?_, fun hc => ?_, fun hc => ?_, fun c hc he => ?_⟩
  · exact absurd (hl _ hc) (by decide)
  · exact absurd (hl _ hc) (by decide)
  · exact absurd (hl _ hc) (by decide)
  · have := hl _ hc; rw [he] at this; exact absurd this (by decide)

/-- A port string accepted by `goAtoi` consists of an optional sign and
digits, so it contains none of the separator characters. -/
theorem goAtoi_chars {p : List Char} {v : Int} (h : goAtoi p = some v) :
    ':' ∉ p ∧ '[' ∉ p ∧ ']' ∉ p ∧ p.head? ≠ some '/' := by
  unfold goAtoi at h
  simp only [] at h
  by_cases hsig : p.head? = some '+' ∨ p.head? = some '-'
  · rw [if_pos hsig] at h
    by_cases hne : p.drop 1 = []
    · rw [if_pos hne] at h; exact absurd h (by simp)
    · rw [if_neg hne] at h
      by_cases hdig : (p.drop 1).all isDigitCh = true
      · have hd := all_digits_chars hdig
        cases p with
        | nil => simp at hsig
        | cons c r =>
          simp only [List.head?_cons, Option.some.injEq] at hsig
          simp only [List.drop_succ_cons, List.drop_zero] at hd
          refine ⟨?_, ?_, ?_, ?_⟩
          · simp only [List.mem_cons, not_or]
            exact ⟨by rcases hsig with hs | hs <;> simp [hs], hd.1⟩
          · simp only [List.mem_cons, not_or]
            exact ⟨by rcases hsig with hs | hs <;> simp [hs], hd.2.1⟩
          · simp only [List.mem_cons, not_or]
            exact ⟨by rcases hsig with hs | hs <;> simp [hs], hd.2.2.1⟩
          · simp only [List.head?_cons, ne_eq, Option.some.injEq]
            rcases hsig with hs | hs <;> simp [hs]
      · rw [if_neg hdig] at h; exact absurd h (by simp)
  · rw [if_neg hsig] at h
    by_cases hne : p = []
    · rw [if_pos hne] at h; exact absurd h (by simp)
    · rw [if_neg hne] at h
      by_cases hdig : p.all isDigitCh = true
      · have hd := all_digits_chars hdig
        refine ⟨hd.1, hd.2.1, hd.2.2.1, ?_⟩
        cases p with
        | nil => simp
        | cons c r =>
          simp only [List.head?_cons, ne_eq, Option.some.injEq]
          exact hd.2.2.2 c (List.mem_cons_self c r)
      · rw [if_neg hdig] at h; exact absurd h (by simp)

deriving instance DecidableEq for Except

theorem resolveAddress_no_colon {target : String} (h : ':' ∉ target.toList) :
    resolveAddress target = .ok ("udp", target, 161) := by
  simp only [resolveAddress, schemeSplit, splitOn3_eq_none h, splitHostPort_eq_none h]
  rfl

theorem string_append_toList (host port : String) :
    (host ++ ":" ++ port).toList = host.toList ++ ':' :: port.toList := by
  rw [string_toList_append, string_toList_append]
  simp

theorem resolveAddress_hostport {host port : String} {v : Int}
    (hh1 : ':' ∉ host.toList) (hh2 : '[' ∉ host.toList) (hh3 : ']' ∉ host.toList)
    (ha : goAtoi port.toList = some v) :
    resolveAddress (host ++ ":" ++ port) = .ok ("udp", host, (v % 65536).toNat) := by
  obtain ⟨hp1, hp2, hp3, hps⟩ := goAtoi_chars ha
  simp only [resolveAddress, schemeSplit, string_append_toList,
    splitOn3_append_noslash hh1 hp1 hps,
    splitHostPort_append hh1 hh2 hh3 hp1 hp2 hp3, ha]
  rfl

theorem resolveAddress_scheme_hostport {scheme host port : String} {v : Int}
    (hsc : ':' ∉ scheme.toList)
    (hh1 : ':' ∉ host.toList) (hh2 : '[' ∉ host.toList) (hh3 : ']' ∉ host.toList)
    (ha : goAtoi port.toList = some v) :
    resolveAddress (scheme ++ "://" ++ host ++ ":" ++ port) =
      .ok (scheme, host, (v % 65536).toNat) := by
  obtain ⟨hp1, hp2, hp3, hps⟩ := goAtoi_chars ha
  have ht : (scheme ++ "://" ++ host ++ ":" ++ port).toList =
      scheme.toList ++ ':' :: '/' :: '/' :: (host.toList ++ ':' :: port.toList) := by
    rw [string_toList_append, string_toList_append, string_toList_append,
      string_toList_append]
    simp
  simp only [resolveAddress, schemeSplit, ht, splitOn3_append hsc,
    splitHostPort_append hh1 hh2 hh3 hp1 hp2 hp3, ha]
  rfl

theorem resolveAddress_unfold (target : String) :
    resolveAddress target =
      match splitHostPort (schemeSplit target.toList).2 with
      | some (host, portStr) =>
        match goAtoi portStr with
        | some p => .ok (⟨(schemeSplit target.toList).1⟩, ⟨host⟩, (p % 65536).toNat)
        | none => .error ("error converting port number to int for target " ++ (⟨host⟩ : String))
      | none =>
        .ok (⟨(schemeSplit target.toList).1⟩, ⟨(schemeSplit target.toList).2⟩, 161) := rfl

theorem resolveAddress_error_iff (target : String) :
    (∃ e, resolveAddress target = .error e) ↔
      (∃ h p, splitHostPort (schemeSplit target.toList).2 = some (h, p) ∧
        goAtoi p = none) := by
  cases hsp : splitHostPort (schemeSplit target.toList).2 with
  | none =>
    rw [resolveAddress_unfold, hsp]
    simp
  | some hp =>
    obtain ⟨h, p⟩ := hp
    cases ha : goAtoi p with
    | none =>
      rw [resolveAddress_unfold, hsp]
      simp [ha]
      exact ⟨h, p, ⟨rfl, rfl⟩, ha⟩
    | some v =>
      rw [resolveAddress_unfold, hsp]
      simp [ha]

/- ---------------------------------------------------------------------
   config package: ConfigureSNMP; main.go: NewGoSNMP session construction
--------------------------------------------------------------------- -/

/-- gosnmp `SnmpV3AuthProtocol` values assigned by `ConfigureSNMP`;
`zero` is the Go zero value of the field (no assignment made). -/
inductive AuthProtocolT
  | zero | md5 | sha | sha224 | sha256 | sha384 | sha512
deriving DecidableEq, Repr

/-- gosnmp `SnmpV3PrivProtocol` values assigned by `ConfigureSNMP`;
`zero` is the Go zero value of the field (no assignment made). -/
inductive PrivProtocolT
  | zero | des | aes | aes192 | aes192c | aes256 | aes256c
deriving DecidableEq, Repr

/-- Model of `gosnmp.UsmSecurityParameters` (the fields `ConfigureSNMP`
touches); defaults are the Go zero values of the struct literal
`&gosnmp.UsmSecurityParameters{UserName: c.Username}`. -/
structure UsmSecurityParameters where
  userName : String := ""
  authenticationProtocol : AuthProtocolT := .zero
  authenticationPassphrase : String := ""
  privacyProtocol : PrivProtocolT := .zero
  privacyPassphrase : String := ""
deriving DecidableEq, Repr

/-- Model of the `gosnmp.GoSNMP` session struct (the fields this program
reads or writes).  `version` uses the gosnmp numeric values (Version1 =
0, Version2c = 1, Version3 = 3); `securityModel` 3 is
`gosnmp.UserSecurityModel`; `msgFlags` 0/1/3 are
NoAuthNoPriv/AuthNoPriv/AuthPriv; `securityParameters` is `none` for the
Go nil interface; `appOptsC` models `AppOpts["c"] = true`.  Defaults are
the Go zero values. -/
structure GoSNMP where
  version : Nat := 0
  community : String := ""
  contextName : String := ""
  securityModel : Nat := 0
  msgFlags : Nat := 0
  securityParameters : Option UsmSecurityParameters := none
  exponentialTimeout : Bool := false
  maxOids : Nat := 0
  port : Nat := 0
  retries : Int := 0
  target : String := ""
  timeout : Int := 0
  transport : String := ""
  appOptsC : Bool := false
deriving DecidableEq, Repr

/-- The `switch c.AuthProtocol` assignment inside `ConfigureSNMP`; an
unmatched protocol string leaves the zero value in place. -/
def mapAuthProtocol (s : String) : AuthProtocolT :=
  if s = "SHA" then .sha
  else if s = "SHA224" then .sha224
  else if s = "SHA256" then .sha256
  else if s = "SHA384" then .sha384
  else if s = "SHA512" then .sha512
  else if s = "MD5" then .md5
  else .zero

/-- The `switch c.PrivProtocol` assignment inside `ConfigureSNMP`; an
unmatched protocol string leaves the zero value in place. -/
def mapPrivProtocol (s : String) : PrivProtocolT :=
  if s = "DES" then .des
  else if s = "AES" then .aes
  else if s = "AES192" then .aes192
  else if s = "AES192C" then .aes192c
  else if s = "AES256" then .aes256
  else if s = "AES256C" then .aes256c
  else .zero

/-- Model of `config.Auth.ConfigureSNMP`: version mapping, community,
context name (per-call override wins when non-empty), security model,
USM parameters; the `auth`/`priv` flags of the `switch c.SecurityLevel`
gate the assignment of the auth and privacy credential fields.  An
unknown security level leaves `msgFlags` untouched (modelled by the
`Option Nat` first component). -/
def configureSNMP (c : Auth) (g : GoSNMP) (snmpContext : String) : GoSNMP :=
  let g1 :=
    if c.version = 1 then { g with version := 0 }
    else if c.version = 2 then { g with version := 1 }
    else if c.version = 3 then { g with version := 3 }
    else g
  let g2 := { g1 with community := c.community }
  let g3 :=
    if snmpContext = "" then { g2 with contextName := c.contextName }
    else { g2 with contextName := snmpContext }
  let g4 := { g3 with securityModel := 3 }
  let usm0 : UsmSecurityParameters := { userName := c.username }
  let fa : Option Nat × Bool × Bool :=
    if c.securityLevel = "noAuthNoPriv" then (some 0, false, false)
    else if c.securityLevel = "authNoPriv" then (some 1, true, false)
    else if c.securityLevel = "authPriv" then (some 3, true, true)
    else (none, false, false)
  let g5 :=
    match fa.1 with
    | some f => { g4 with msgFlags := f }
    | none => g4
  let usm1 :=
    if fa.2.1 then
      { usm0 with authenticationPassphrase := c.password,
                  authenticationProtocol := mapAuthProtocol c.authProtocol }
    else usm0
  let usm2 :=
    if fa.2.2 then
      { usm1 with privacyPassphrase := c.privPassword,
                  privacyProtocol := mapPrivProtocol c.privProtocol }
    else usm1
  { g5 with securityParameters := some usm2 }

/-- Model of `config.Options` (named `WalkParams` where `main.go` reads
it): the process-wide walk parameters. -/
structure Options where
  maxRepetitions : Nat
  retries : Int
  timeout : Int
  useUnconnectedUDPSocket : Bool
  allowNonIncreasingOIDs : Bool
deriving DecidableEq, Repr

/-- Model of `config.Config`: named auth profiles and the options.  The
Go map is an association list. -/
structure Config where
  auths : List (String × Auth)
  walkParams : Options
deriving DecidableEq, Repr

/-- Go map lookup `C.Auths[auth]` as association-list lookup. -/
def lookupAuth (auths : List (String × Auth)) (name : String) : Option Auth :=
  match auths with
  | [] => none
  | (k, a) :: rest => if k = name then some a else lookupAuth rest name

/-- The session literal built by `NewGoSNMP` (lines 71-85): fixed
engine settings plus resolved address and the options; `MaxOids` is the
gosnmp hard ceiling 60; `AppOpts["c"]` is set when
`AllowNonIncreasingOIDs` is configured. -/
def mkSession (C : Config) (transport host : String) (port : Nat) : GoSNMP :=
  let g : GoSNMP :=
    { exponentialTimeout := true
      maxOids := 60
      port := port
      retries := C.walkParams.retries
      target := host
      timeout := C.walkParams.timeout
      transport := transport }
  if C.walkParams.allowNonIncreasingOIDs then { g with appOptsC := true } else g

/-- Model of `main.go NewGoSNMP`: resolve the target address, build the
session, and apply the named auth profile if (and only if) the name is
present in the configured map. -/
def newGoSNMP (C : Config) (auth target : String) : Except String GoSNMP :=
  match resolveAddress target with
  | .error e => .error e
  | .ok (transport, host, port) =>
    let g := mkSession C transport host port
    match lookupAuth C.auths auth with
    | some cauth => .ok (configureSNMP cauth g "")
    | none => .ok g

theorem newGoSNMP_error_iff (C : Config) (auth target : String) :
    (∃ e, newGoSNMP C auth target = .error e) ↔
      (∃ e, resolveAddress target = .error e) := by
  unfold newGoSNMP
  cases hr : resolveAddress target with
  | error e => simp [hr]
  | ok t =>
    obtain ⟨tr, h, p⟩ := t
    cases hl : lookupAuth C.auths auth with
    | some a => simp [hl]
    | none => simp [hl]

/-- C2 counterexample: the claim requires resolution to fail whenever
the port segment is not an unsigned 16-bit integer, but the target
`"host:99999"` (99999 > 65535) resolves successfully — `strconv.Atoi`
accepts it and `uint16(p)` truncates it to 99999 mod 2^16 = 34463. -/
theorem c2_address_resolution_counterexample :
    resolveAddress "host:99999" = .ok ("udp", "host", 34463) := by
  decide

/-- C2 (amended): a colon-free host resolves to (udp, host, 161);
`host:p` resolves to (udp, host, p mod 2^16) whenever `p` parses as a
signed 64-bit integer (so a valid unsigned 16-bit port is taken as is,
and an out-of-range port is truncated rather than rejected);
`scheme://host:p` likewise with transport `scheme`; and resolution
fails exactly when the host:port split succeeds but the port segment
fails integer parsing. -/
theorem c2_address_resolution_amended :
    (∀ host : String, ':' ∉ host.toList → resolveAddress host = .ok ("udp", host, 161)) ∧
    (∀ host port : String, ∀ v : Int,
      ':' ∉ host.toList → '[' ∉ host.toList → ']' ∉ host.toList →
      goAtoi port.toList = some v →
      resolveAddress (host ++ ":" ++ port) = .ok ("udp", host, (v % 65536).toNat)) ∧
    (∀ scheme host port : String, ∀ v : Int,
      ':' ∉ scheme.toList →
      ':' ∉ host.toList → '[' ∉ host.toList → ']' ∉ host.toList →
      goAtoi port.toList = some v →
      resolveAddress (scheme ++ "://" ++ host ++ ":" ++ port) =
        .ok (scheme, host, (v % 65536).toNat)) ∧
    (∀ target : String,
      (∃ e, resolveAddress target = .error e) ↔
        (∃ h p, splitHostPort (schemeSplit target.toList).2 = some (h, p) ∧
          goAtoi p = none)) := by
  refine ⟨?_, ?_, ?_, ?_⟩
  · intro host h; exact resolveAddress_no_colon h
  · intro host port v h1 h2 h3 ha; exact resolveAddress_hostport h1 h2 h3 ha
  · intro scheme host port v hs h1 h2 h3 ha
    exact resolveAddress_scheme_hostport hs h1 h2 h3 ha
  · intro target; exact resolveAddress_error_iff target

/-- C2 witness: the spec's own examples, derived from the amended
theorem at concrete inputs. -/
theorem c2_address_resolution_amended_witness :
    resolveAddress "host:10161" = .ok ("udp", "host", 10161) ∧
    resolveAddress "tcp://host:10161" = .ok ("tcp", "host", 10161) ∧
    (∃ e, resolveAddress "host:abc" = .error e) := by
  refine ⟨?_, ?_, ?_⟩
  · have h := c2_address_resolution_amended.2.1 "host" "10161" 10161
      (by decide) (by decide) (by decide) (by decide)
    rw [show ("host:10161" : String) = "host" ++ ":" ++ "10161" from rfl]
    rw [h]
    rfl
  · have h := c2_address_resolution_amended.2.2.1 "tcp" "host" "10161" 10161
      (by decide) (by decide) (by decide) (by decide) (by decide)
    rw [show ("tcp://host:10161" : String) = "tcp" ++ "://" ++ "host" ++ ":" ++ "10161" from rfl]
    rw [h]
    rfl
  · exact (c2_address_resolution_amended.2.2.2 "host:abc").mpr
      ⟨"host".toList, "abc".toList, by decide, by decide⟩

/-- C10: when the host:port split itself fails (no colon at all, or a
malformed spec such as multiple colons without brackets), resolution
does not fail: the whole remaining string is the host and the port
defaults to 161; and session construction can fail only when the split
succeeds but the port segment fails integer parsing. -/
theorem c10_split_failure_defaults :
    (∀ target : String, splitHostPort (schemeSplit target.toList).2 = none →
      resolveAddress target =
        .ok (⟨(schemeSplit target.toList).1⟩, ⟨(schemeSplit target.toList).2⟩, 161)) ∧
    (∀ target : String, ':' ∉ target.toList →
      resolveAddress target = .ok ("udp", target, 161)) ∧
    resolveAddress "host:1:2" = .ok ("udp", "host:1:2", 161) ∧
    (∀ C : Config, ∀ auth target : String,
      (∃ e, newGoSNMP C auth target = .error e) ↔
        (∃ h p, splitHostPort (schemeSplit target.toList).2 = some (h, p) ∧
          goAtoi p = none)) := by
  refine ⟨?_, ?_, ?_, ?_⟩
  · intro target hsp
    simp only [resolveAddress, hsp]
  · intro target h; exact resolveAddress_no_colon h
  · decide
  · intro C auth target
    exact (newGoSNMP_error_iff C auth target).trans (resolveAddress_error_iff target)

/-- C10 witness: concrete instances — a bare host resolves with the
default port, and a target whose port fails integer parsing makes
session construction fail. -/
theorem c10_split_failure_defaults_witness :
    resolveAddress "myhost" = .ok ("udp", "myhost", 161) ∧
    (newGoSNMP ⟨[], ⟨25, 3, 5, false, false⟩⟩ "a" "host:xyz" =
      .error "error converting port number to int for target host") := by
  refine ⟨c10_split_failure_defaults.2.1 "myhost" (by decide), ?_⟩
  decide

/-- The session-construction step of `SnmpGet` (tools.go line 28): it
calls `NewGoSNMP` on the tool arguments. -/
def snmpGetSession (C : Config) (auth target : String) : Except String GoSNMP :=
  newGoSNMP C auth target

/-- The session-construction step of `SnmpWalk` (tools.go line 55): it
calls `NewGoSNMP` on the tool arguments. -/
def snmpWalkSession (C : Config) (auth target : String) : Except String GoSNMP :=
  newGoSNMP C auth target

/-- C7: an auth name absent from the configured profile map does not
fail session construction — the `ConfigureSNMP` step is skipped and the
base session carries no authentication (nil security parameters, empty
community, zero message flags and version); Get and Walk build their
sessions through the same constructor. -/
theorem c7_missing_auth_profile_silent :
    (∀ C : Config, ∀ auth target : String, lookupAuth C.auths auth = none →
      newGoSNMP C auth target =
        match resolveAddress target with
        | .error e => .error e
        | .ok (transport, host, port) => .ok (mkSession C transport host port)) ∧
    (∀ C : Config, ∀ transport host : String, ∀ port : Nat,
      (mkSession C transport host port).securityParameters = none ∧
      (mkSession C transport host port).community = "" ∧
      (mkSession C transport host port).msgFlags = 0 ∧
      (mkSession C transport host port).version = 0) ∧
    (∀ C : Config, ∀ auth target : String,
      snmpGetSession C auth target = snmpWalkSession C auth target) := by
  refine ⟨?_, ?_, ?_⟩
  · intro C auth target hl
    unfold newGoSNMP
    cases hr : resolveAddress target with
    | error e => rfl
    | ok t =>
      obtain ⟨tr, h, p⟩ := t
      simp [hl]
  · intro C tr h p
    unfold mkSession
    split_ifs <;> exact ⟨rfl, rfl, rfl, rfl⟩
  · intro C auth target
    rfl

/-- C7 witness: with a concrete single-profile configuration and an
absent auth name, session construction succeeds and yields the bare
session. -/
theorem c7_missing_auth_profile_silent_witness :
    newGoSNMP ⟨[("known", DefaultAuth)], ⟨25, 3, 5, false, false⟩⟩ "absent" "h" =
      .ok (mkSession ⟨[("known", DefaultAuth)], ⟨25, 3, 5, false, false⟩⟩ "udp" "h" 161) ∧
    (mkSession ⟨[("known", DefaultAuth)], ⟨25, 3, 5, false, false⟩⟩ "udp" "h"
      161).securityParameters = none := by
  constructor
  · rw [c7_missing_auth_profile_silent.1 ⟨[("known", DefaultAuth)], ⟨25, 3, 5, false, false⟩⟩
      "absent" "h" (by decide)]
    rw [resolveAddress_no_colon (by decide)]
  · exact (c7_missing_auth_profile_silent.2.1
      ⟨[("known", DefaultAuth)], ⟨25, 3, 5, false, false⟩⟩ "udp" "h" 161).1

theorem configureSNMP_community (c : Auth) (g : GoSNMP) (ctx : String) :
    (configureSNMP c g ctx).community = c.community := by
  simp only [configureSNMP]
  split_ifs <;> rfl

theorem configureSNMP_securityModel (c : Auth) (g : GoSNMP) (ctx : String) :
    (configureSNMP c g ctx).securityModel = 3 := by
  simp only [configureSNMP]
  split_ifs <;> rfl

/-- The USM parameter record installed by `ConfigureSNMP`, as a function
of the profile: username always; auth credential fields only for the
`auth` security levels; privacy credential fields only for `authPriv`. -/
theorem configureSNMP_usm (c : Auth) (g : GoSNMP) (ctx : String) :
    (configureSNMP c g ctx).securityParameters =
      some { userName := c.username
             authenticationProtocol :=
               if c.securityLevel = "authNoPriv" ∨ c.securityLevel = "authPriv" then
                 mapAuthProtocol c.authProtocol else .zero
             authenticationPassphrase :=
               if c.securityLevel = "authNoPriv" ∨ c.securityLevel = "authPriv" then
                 c.password else ""
             privacyProtocol :=
               if c.securityLevel = "authPriv" then mapPrivProtocol c.privProtocol
               else .zero
             privacyPassphrase :=
               if c.securityLevel = "authPriv" then c.privPassword else "" } := by
  simp only [configureSNMP]
  split_ifs <;> simp_all

/-- C9: for every profile (hence in particular every validated profile,
of any version including 1 and 2c), `ConfigureSNMP` unconditionally sets
the community string, sets the security model to the user-based security
model, and installs USM parameters carrying the profile's username; the
auth protocol and passphrase are filled only when the security level is
`authNoPriv` or `authPriv`, and the privacy protocol and passphrase only
when it is `authPriv`. -/
theorem c9_configureSNMP_characterization (c : Auth) (g : GoSNMP) (ctx : String) :
    (configureSNMP c g ctx).community = c.community ∧
    (configureSNMP c g ctx).securityModel = 3 ∧
    (configureSNMP c g ctx).securityParameters.map UsmSecurityParameters.userName =
      some c.username ∧
    ((c.securityLevel = "authNoPriv" ∨ c.securityLevel = "authPriv") →
      (configureSNMP c g ctx).securityParameters.map
          UsmSecurityParameters.authenticationPassphrase = some c.password ∧
      (configureSNMP c g ctx).securityParameters.map
          UsmSecurityParameters.authenticationProtocol =
        some (mapAuthProtocol c.authProtocol)) ∧
    (¬(c.securityLevel = "authNoPriv" ∨ c.securityLevel = "authPriv") →
      (configureSNMP c g ctx).securityParameters.map
          UsmSecurityParameters.authenticationPassphrase = some "" ∧
      (configureSNMP c g ctx).securityParameters.map
          UsmSecurityParameters.authenticationProtocol = some .zero) ∧
    (c.securityLevel = "authPriv" →
      (configureSNMP c g ctx).securityParameters.map
          UsmSecurityParameters.privacyPassphrase = some c.privPassword ∧
      (configureSNMP c g ctx).securityParameters.map
          UsmSecurityParameters.privacyProtocol =
        some (mapPrivProtocol c.privProtocol)) ∧
    (c.securityLevel ≠ "authPriv" →
      (configureSNMP c g ctx).securityParameters.map
          UsmSecurityParameters.privacyPassphrase = some "" ∧
      (configureSNMP c g ctx).securityParameters.map
          UsmSecurityParameters.privacyProtocol = some .zero) := by
  have hu := configureSNMP_usm c g ctx
  refine ⟨configureSNMP_community c g ctx, configureSNMP_securityModel c g ctx,
    ?_, ?_, ?_, ?_, ?_⟩
  · rw [hu]; rfl
  · intro h
    rw [hu]
    simp [h]
  · intro h
    rw [hu]
    simp [h]
  · intro h
    rw [hu]
    simp [h]
  · intro h
    rw [hu]
    simp [h]

/-- C9 witness: a concrete `authPriv` version-2 profile applied to a
fresh session sets community, security model and both credential
pairs. -/
theorem c9_configureSNMP_characterization_witness :
    (configureSNMP ⟨"com", "authPriv", "u", "pw", "SHA", "AES", "ppw", "", 2⟩ {} "").community =
      "com" ∧
    (configureSNMP ⟨"com", "authPriv", "u", "pw", "SHA", "AES", "ppw", "", 2⟩ {}
      "").securityModel = 3 ∧
    (configureSNMP ⟨"com", "authPriv", "u", "pw", "SHA", "AES", "ppw", "", 2⟩ {}
      "").securityParameters.map UsmSecurityParameters.authenticationPassphrase = some "pw" ∧
    (configureSNMP ⟨"com", "authPriv", "u", "pw", "SHA", "AES", "ppw", "", 2⟩ {}
      "").securityParameters.map UsmSecurityParameters.privacyPassphrase = some "ppw" := by
  have h := c9_configureSNMP_characterization
    ⟨"com", "authPriv", "u", "pw", "SHA", "AES", "ppw", "", 2⟩ {} ""
  exact ⟨h.1, h.2.1, (h.2.2.2.1 (Or.inr rfl)).1, (h.2.2.2.2.2.1 rfl).1⟩

/- ---------------------------------------------------------------------
   tools.go: formatValue and the PDU model
--------------------------------------------------------------------- -/

/-- The gosnmp `Asn1BER` tags this program's `formatValue` dispatches
on (plus `noSuchInstance`, which reaches the default branch). -/
inductive Asn1BER
  | integer | ipAddress | noSuchObject | objectIdentifier | octetString
  | timeTicks | noSuchInstance
deriving DecidableEq, Repr

/-- gosnmp `Asn1BER.String()` names, used by the `%s` verb of the
default branch. -/
def typeName : Asn1BER → String
  | .integer => "Integer"
  | .ipAddress => "IPAddress"
  | .noSuchObject => "NoSuchObject"
  | .objectIdentifier => "ObjectIdentifier"
  | .octetString => "OctetString"
  | .timeTicks => "TimeTicks"
  | .noSuchInstance => "NoSuchInstance"

/-- The Go `interface{}` payload of a PDU value: an integer, a byte
slice, a string, or nil. -/
inductive GoValue
  | vInt (n : Int) | vBytes (bs : List Nat) | vString (s : String) | vNil
deriving DecidableEq, Repr

/-- Model of `gosnmp.SnmpPDU` (name, type, value). -/
structure SnmpPDU where
  name : String
  type : Asn1BER
  value : GoValue
deriving DecidableEq, Repr

/-- Decimal digits of `n` (little fuel recursion on `n / 10`; `fuel = n`
always suffices).  Empty for `n = 0`; `natDec` handles that case. -/
def natDecAux (fuel n : Nat) : List Char :=
  match fuel, n with
  | 0, _ => []
  | _, 0 => []
  | fuel + 1, n => natDecAux fuel (n / 10) ++ [Char.ofNat (48 + n % 10)]

/-- Decimal rendering of a natural number. -/
def natDec (n : Nat) : String := if n = 0 then "0" else ⟨natDecAux n n⟩

/-- Go `%d` rendering of a (64-bit) integer. -/
def goIntStr (i : Int) : String :=
  if i < 0 then "-" ++ natDec (-i).toNat else natDec i.toNat

/-- Zero-pad a digit list on the left to width `w`. -/
def padZeros (w : Nat) (l : List Char) : List Char :=
  List.replicate (w - l.length) '0' ++ l

/-- The digit list of the magnitude of an integer. -/
def padMag (i : Int) : List Char :=
  if i.natAbs = 0 then ['0'] else natDecAux i.natAbs i.natAbs

/-- Go `%.2d` / `%.3d` rendering: the digits zero-padded to the
precision, sign in front. -/
def padInt (w : Nat) (i : Int) : String :=
  if i < 0 then "-" ++ (⟨padZeros w (padMag i)⟩ : String) else ⟨padZeros w (padMag i)⟩

/-- Model of `gosnmp.ToBigInt(v).Int64()`: integers pass through,
strings are parsed as base-10 64-bit integers (0 on failure), anything
else yields 0. -/
def toBigInt : GoValue → Int
  | .vInt n => n
  | .vString s => (goAtoi s.toList).getD 0
  | _ => 0

/-- Go `fmt` rendering of a PDU value under the `%d` verb. -/
def goFmtD : GoValue → String
  | .vInt n => goIntStr n
  | .vBytes bs => "[" ++ String.intercalate " " (bs.map (fun b => natDec b)) ++ "]"
  | .vString s => "%!d(string=" ++ s ++ ")"
  | .vNil => "%!d(<nil>)"

/-- Go `fmt` rendering of a PDU value under the `%s` verb. -/
def goFmtS : GoValue → String
  | .vInt n => "%!s(int=" ++ goIntStr n ++ ")"
  | .vBytes bs => ⟨bs.map Char.ofNat⟩
  | .vString s => s
  | .vNil => "%!s(<nil>)"

/-- Uppercase hex digit. -/
def hexDigit (n : Nat) : Char :=
  if n < 10 then Char.ofNat (48 + n) else Char.ofNat (55 + n)

/-- One byte under Go's `% X` verb: two uppercase hex digits. -/
def hexByte (b : Nat) : String := ⟨[hexDigit (b / 16 % 16), hexDigit (b % 16)]⟩

/-- A byte slice under Go's `% X` verb: space-separated uppercase hex. -/
def hexBytes : List Nat → String
  | [] => ""
  | [b] => hexByte b
  | b :: rest => hexByte b ++ " " ++ hexBytes rest

/-- A byte slice under Go's `%s` verb / `string(bytes)`: the raw bytes
as characters. -/
def bytesAsString (bs : List Nat) : String := ⟨bs.map Char.ofNat⟩

/-- UTF-8 continuation byte (0x80-0xBF). -/
def isCont (b : Nat) : Bool := 128 ≤ b ∧ b ≤ 191

/-- Valid second byte of a three-byte UTF-8 sequence, per first byte
(Go `utf8.acceptRanges`: 0xE0 tightens the low end, 0xED the high end
to exclude surrogates). -/
def cont3ok (b0 b1 : Nat) : Bool :=
  (b0 = 224 ∧ 160 ≤ b1 ∧ b1 ≤ 191) ∨ (225 ≤ b0 ∧ b0 ≤ 236 ∧ 128 ≤ b1 ∧ b1 ≤ 191) ∨
  (b0 = 237 ∧ 128 ≤ b1 ∧ b1 ≤ 159) ∨ (238 ≤ b0 ∧ b0 ≤ 239 ∧ 128 ≤ b1 ∧ b1 ≤ 191)

/-- Valid second byte of a four-byte UTF-8 sequence, per first byte
(0xF0 tightens the low end, 0xF4 the high end to stay below 0x110000). -/
def cont4ok (b0 b1 : Nat) : Bool :=
  (b0 = 240 ∧ 144 ≤ b1 ∧ b1 ≤ 191) ∨ (241 ≤ b0 ∧ b0 ≤ 243 ∧ 128 ≤ b1 ∧ b1 ≤ 191) ∨
  (b0 = 244 ∧ 128 ≤ b1 ∧ b1 ≤ 143)

/-- One step of the rune iteration, written with explicit fuel so the
recursion is structural (every step consumes at least one byte, so
`fuel = length` suffices; see `goStringRunes`). -/
def goRunesAux : Nat → List Nat → List Nat
  | 0, _ => []
  | _, [] => []
  | fuel + 1, b0 :: rest =>
    if b0 < 128 then b0 :: goRunesAux fuel rest
    else if 194 ≤ b0 ∧ b0 ≤ 223 then
      match rest with
      | b1 :: rest2 =>
        if isCont b1 then ((b0 % 32) * 64 + b1 % 64) :: goRunesAux fuel rest2
        else 65533 :: goRunesAux fuel rest
      | [] => 65533 :: goRunesAux fuel rest
    else if 224 ≤ b0 ∧ b0 ≤ 239 then
      match rest with
      | b1 :: rest2 =>
        if cont3ok b0 b1 then
          match rest2 with
          | b2 :: rest3 =>
            if isCont b2 then
              ((b0 % 16) * 4096 + (b1 % 64) * 64 + b2 % 64) :: goRunesAux fuel rest3
            else 65533 :: goRunesAux fuel rest
          | [] => 65533 :: goRunesAux fuel rest
        else 65533 :: goRunesAux fuel rest
      | [] => 65533 :: goRunesAux fuel rest
    else if 240 ≤ b0 ∧ b0 ≤ 244 then
      match rest with
      | b1 :: rest2 =>
        if cont4ok b0 b1 then
          match rest2 with
          | b2 :: rest3 =>
            if isCont b2 then
              match rest3 with
              | b3 :: rest4 =>
                if isCont b3 then
                  ((b0 % 8) * 262144 + (b1 % 64) * 4096 + (b2 % 64) * 64 + b3 % 64) ::
                    goRunesAux fuel rest4
                else 65533 :: goRunesAux fuel rest
              | [] => 65533 :: goRunesAux fuel rest
            else 65533 :: goRunesAux fuel rest
          | [] => 65533 :: goRunesAux fuel rest
        else 65533 :: goRunesAux fuel rest
      | [] => 65533 :: goRunesAux fuel rest
    else 65533 :: goRunesAux fuel rest

/-- The rune sequence Go's `for _, r := range string(bytes)` iterates
over: UTF-8 decoding of the byte slice where every invalid or truncated
sequence yields the replacement rune 0xFFFD (65533) and consumes one
byte, exactly as `utf8.DecodeRuneInString`. -/
def goStringRunes (bs : List Nat) : List Nat := goRunesAux bs.length bs

/-- The TimeTicks line of `formatValue`.  The Go code computes the five
duration fields through float64 arithmetic (`Duration.Hours`,
`Duration.Minutes`, `Duration.Seconds`, `math.Mod`, float division and
`int64` truncation); this model computes them with exact truncated
integer arithmetic on `ticks * 10` milliseconds.  The float computation
itself is outside this embedding (see claim C4). -/
def timeTicksLine (name : String) (t : Int) : String :=
  let ms := t * 10
  name ++ " = Timeticks: (" ++ goIntStr t ++ ") " ++
    padInt 2 (Int.tdiv ms 86400000) ++ " days, " ++
    padInt 2 (Int.tmod (Int.tdiv ms 3600000) 24) ++ ":" ++
    padInt 2 (Int.tmod (Int.tdiv ms 60000) 60) ++ ":" ++
    padInt 2 (Int.tmod (Int.tdiv ms 1000) 60) ++ "." ++
    padInt 3 (Int.tmod ms 1000) ++ "\n"

/-- Model of `tools.go formatValue`: one newline-terminated line per
PDU, dispatched on the PDU type.  Returns `none` exactly where the Go
code panics (the `pdu.Value.([]byte)` type assertion on a
non-byte-slice OctetString value).  The OctetString printable check is
the Go loop: a sticky flag over the decoded runes. -/
def formatValue (pdu : SnmpPDU) : Option String :=
  match pdu.type with
  | .integer => some (pdu.name ++ " = INTEGER: " ++ goFmtD pdu.value ++ "\n")
  | .ipAddress => some (pdu.name ++ " = IpAddress: " ++ goFmtS pdu.value ++ "\n")
  | .noSuchObject =>
    some (pdu.name ++ " = No Such Object available on this agent at this OID\n")
  | .objectIdentifier => some (pdu.name ++ " = OID: " ++ goFmtS pdu.value ++ "\n")
  | .octetString =>
    match pdu.value with
    | .vBytes bs =>
      let isHex := (goStringRunes bs).foldl
        (fun acc r => if r < 32 ∨ 126 < r then true else acc) false
      if isHex then some (pdu.name ++ " = Hex-STRING: " ++ hexBytes bs ++ "\n")
      else some (pdu.name ++ " = STRING: " ++ bytesAsString bs ++ "\n")
    | _ => none
  | .timeTicks => some (timeTicksLine pdu.name (toBigInt pdu.value))
  | t => some (pdu.name ++ " = " ++ typeName t ++ ": " ++ goFmtD pdu.value ++ "\n")

theorem goRunesAux_ascii : ∀ (fuel : Nat) (bs : List Nat), bs.length ≤ fuel →
    (∀ b ∈ bs, b < 128) → goRunesAux fuel bs = bs := by
  intro fuel
  induction fuel with
  | zero =>
    intro bs hl _
    have he : bs = [] := List.length_eq_zero.mp (Nat.le_zero.mp hl)
    subst he; rfl
  | succ n ih =>
    intro bs hl hb
    cases bs with
    | nil => rfl
    | cons b0 rest =>
      have hb0 : b0 < 128 := hb b0 (List.mem_cons_self _ _)
      have hrest : rest.length ≤ n := by
        simp only [List.length_cons] at hl; omega
      simp only [goRunesAux, if_pos hb0]
      rw [ih rest hrest (fun b hbm => hb b (List.mem_cons_of_mem _ hbm))]

/-- Every non-ASCII leading byte contributes a rune above 126 (either a
decoded multi-byte rune, which is at least 0x80, or the replacement
rune 0xFFFD). -/
theorem goRunesAux_head_big (n b0 : Nat) (rest : List Nat) (h1 : ¬ b0 < 128) :
    ∃ r, r ∈ goRunesAux (n + 1) (b0 :: rest) ∧ 126 < r := by
  by_cases h2 : 194 ≤ b0 ∧ b0 ≤ 223
  · cases rest with
    | nil => exact ⟨65533, by simp [goRunesAux, h1, h2], by omega⟩
    | cons b1 rest2 =>
      by_cases hc : isCont b1 = true
      · exact ⟨(b0 % 32) * 64 + b1 % 64, by simp [goRunesAux, h1, h2, hc], by omega⟩
      · exact ⟨65533, by simp [goRunesAux, h1, h2, hc], by omega⟩
  · by_cases h3 : 224 ≤ b0 ∧ b0 ≤ 239
    · cases rest with
      | nil => exact ⟨65533, by simp [goRunesAux, h1, h2, h3], by omega⟩
      | cons b1 rest2 =>
        by_cases hc : cont3ok b0 b1 = true
        · cases rest2 with
          | nil => exact ⟨65533, by simp [goRunesAux, h1, h2, h3, hc], by omega⟩
          | cons b2 rest3 =>
            by_cases hc2 : isCont b2 = true
            · refine ⟨(b0 % 16) * 4096 + (b1 % 64) * 64 + b2 % 64,
                by simp [goRunesAux, h1, h2, h3, hc, hc2], ?_⟩
              simp only [cont3ok, decide_eq_true_eq] at hc
              omega
            · exact ⟨65533, by simp [goRunesAux, h1, h2, h3, hc, hc2], by omega⟩
        · exact ⟨65533, by simp [goRunesAux, h1, h2, h3, hc], by omega⟩
    · by_cases h4 : 240 ≤ b0 ∧ b0 ≤ 244
      · cases rest with
        | nil => exact ⟨65533, by simp [goRunesAux, h1, h2, h3, h4], by omega⟩
        | cons b1 rest2 =>
          by_cases hc : cont4ok b0 b1 = true
          · cases rest2 with
            | nil => exact ⟨65533, by simp [goRunesAux, h1, h2, h3, h4, hc], by omega⟩
            | cons b2 rest3 =>
              by_cases hc2 : isCont b2 = true
              · cases rest3 with
                | nil =>
                  exact ⟨65533, by simp [goRunesAux, h1, h2, h3, h4, hc, hc2], by omega⟩
                | cons b3 rest4 =>
                  by_cases hc3 : isCont b3 = true
                  · refine ⟨(b0 % 8) * 262144 + (b1 % 64) * 4096 + (b2 % 64) * 64 + b3 % 64,
                      by simp [goRunesAux, h1, h2, h3, h4, hc, hc2, hc3], ?_⟩
                    simp only [cont4ok, decide_eq_true_eq] at hc
                    omega
                  · exact ⟨65533, by simp [goRunesAux, h1, h2, h3, h4, hc, hc2, hc3], by omega⟩
              · exact ⟨65533, by simp [goRunesAux, h1, h2, h3, h4, hc, hc2], by omega⟩
          · exact ⟨65533, by simp [goRunesAux, h1, h2, h3, h4, hc], by omega⟩
      · exact ⟨65533, by simp [goRunesAux, h1, h2, h3, h4], by omega⟩

/-- When every decoded rune is printable ASCII, every byte is too:
non-ASCII leading bytes are impossible (their rune exceeds 126), so the
decoding walks the bytes one by one. -/
theorem goRunesAux_printable : ∀ (fuel : Nat) (bs : List Nat), bs.length ≤ fuel →
    (∀ r ∈ goRunesAux fuel bs, 32 ≤ r ∧ r ≤ 126) →
    ∀ b ∈ bs, 32 ≤ b ∧ b ≤ 126 := by
  intro fuel
  induction fuel with
  | zero =>
    intro bs hl _ b hb
    have he : bs = [] := List.length_eq_zero.mp (Nat.le_zero.mp hl)
    subst he
    cases hb
  | succ n ih =>
    intro bs hl hr b hb
    cases bs with
    | nil => cases hb
    | cons b0 rest =>
      by_cases h1 : b0 < 128
      · have e : goRunesAux (n + 1) (b0 :: rest) = b0 :: goRunesAux n rest := by
          simp [goRunesAux, h1]
        rw [e] at hr
        have hrest : rest.length ≤ n := by
          simp only [List.length_cons] at hl; omega
        rcases List.mem_cons.mp hb with hbe | hbm
        · subst hbe; exact hr b (List.mem_cons_self _ _)
        · exact ih rest hrest (fun r hrm => hr r (List.mem_cons_of_mem _ hrm)) b hbm
      · obtain ⟨r, hrm, hrb⟩ := goRunesAux_head_big n b0 rest h1
        have := hr r hrm
        omega

/-- The Go loop `isHex := false; for ...; if bad { isHex = true }` is a
sticky flag: the fold equals `any`. -/
theorem foldl_sticky (l : List Nat) (acc : Bool) :
    l.foldl (fun acc r => if r < 32 ∨ 126 < r then true else acc) acc =
      (acc || l.any (fun r => decide (r < 32 ∨ 126 < r))) := by
  induction l generalizing acc with
  | nil => simp
  | cons x xs ih =>
    simp only [List.foldl_cons, List.any_cons, ih]
    by_cases h : x < 32 ∨ 126 < x
    · simp [h]
    · simp [h]

/-- The sticky flag stays false exactly when every byte of the slice is
printable ASCII (32-126). -/
theorem isHex_false_iff (bs : List Nat) :
    ((goStringRunes bs).foldl (fun acc r => if r < 32 ∨ 126 < r then true else acc) false
        = false) ↔ ∀ b ∈ bs, 32 ≤ b ∧ b ≤ 126 := by
  simp only [goStringRunes]
  rw [foldl_sticky]
  simp only [Bool.false_or]
  constructor
  · intro h b hb
    refine goRunesAux_printable bs.length bs (le_refl _) ?_ b hb
    intro r hrm
    by_contra hcon
    have hor : r < 32 ∨ 126 < r := by omega
    have : (goRunesAux bs.length bs).any (fun r => decide (r < 32 ∨ 126 < r)) = true :=
      List.any_eq_true.mpr ⟨r, hrm, decide_eq_true hor⟩
    rw [this] at h
    cases h
  · intro h
    have e := goRunesAux_ascii bs.length bs (le_refl _)
      (fun b hb => by have := h b hb; omega)
    rw [e]
    cases hany : bs.any (fun r => decide (r < 32 ∨ 126 < r)) with
    | false => rfl
    | true =>
      obtain ⟨r, hrm, hrp⟩ := List.any_eq_true.mp hany
      have := h r hrm
      simp only [decide_eq_true_eq] at hrp
      omega

/-- C3: the OctetString formatter emits the STRING rendering exactly
when every byte lies in the printable ASCII range 32-126 (the rune loop
over the UTF-8 decoding classifies on the whole content), and the
Hex-STRING rendering otherwise; the spec's two concrete examples
render as stated. -/
theorem c3_octetstring_classification :
    (∀ (name : String) (bs : List Nat),
      ((∀ b ∈ bs, 32 ≤ b ∧ b ≤ 126) →
        formatValue ⟨name, .octetString, .vBytes bs⟩ =
          some (name ++ " = STRING: " ++ bytesAsString bs ++ "\n")) ∧
      (¬ (∀ b ∈ bs, 32 ≤ b ∧ b ≤ 126) →
        formatValue ⟨name, .octetString, .vBytes bs⟩ =
          some (name ++ " = Hex-STRING: " ++ hexBytes bs ++ "\n"))) ∧
    formatValue ⟨".1", .octetString, .vBytes [72, 101, 108, 108, 111]⟩ =
      some ".1 = STRING: Hello\n" ∧
    formatValue ⟨".1", .octetString, .vBytes [0, 1, 2]⟩ =
      some ".1 = Hex-STRING: 00 01 02\n" := by
  refine ⟨?_, by decide, by decide⟩
  intro name bs
  constructor
  · intro h
    have hx := (isHex_false_iff bs).mpr h
    simp only [formatValue]
    rw [hx]
    simp
  · intro h
    have hx : ((goStringRunes bs).foldl
        (fun acc r => if r < 32 ∨ 126 < r then true else acc) false) = true := by
      cases e : ((goStringRunes bs).foldl
          (fun acc r => if r < 32 ∨ 126 < r then true else acc) false) with
      | false => exact absurd ((isHex_false_iff bs).mp e) h
      | true => rfl
    simp only [formatValue]
    rw [hx]
    simp

/-- C3 witness: the classification applied at a printable and a
non-printable concrete byte slice. -/
theorem c3_octetstring_classification_witness :
    formatValue ⟨".w", .octetString, .vBytes [65]⟩ =
      some (".w" ++ " = STRING: " ++ bytesAsString [65] ++ "\n") ∧
    formatValue ⟨".w", .octetString, .vBytes [200]⟩ =
      some (".w" ++ " = Hex-STRING: " ++ hexBytes [200] ++ "\n") := by
  exact ⟨(c3_octetstring_classification.1 ".w" [65]).1 (by decide),
    (c3_octetstring_classification.1 ".w" [200]).2 (by decide)⟩

/-- C5 counterexample: `formatValue` has no NoSuchInstance case, so a
NoSuchInstance PDU falls to the default branch and is not rendered as
the sentence the spec claims. -/
theorem c5_nosuchinstance_counterexample :
    formatValue ⟨".1.3", .noSuchInstance, .vNil⟩ =
      some ".1.3 = NoSuchInstance: %!d(<nil>)\n" ∧
    formatValue ⟨".1.3", .noSuchInstance, .vNil⟩ ≠
      some ".1.3 = No Such Instance currently exists at this OID\n" := by
  constructor
  · decide
  · decide

/-- C5 (amended): a NoSuchInstance PDU is rendered by the default
branch of `formatValue` as `<name> = NoSuchInstance: <value under %d>`,
not as a dedicated sentence. -/
theorem c5_nosuchinstance_amended (name : String) (v : GoValue) :
    formatValue ⟨name, .noSuchInstance, v⟩ =
      some (name ++ " = " ++ "NoSuchInstance" ++ ": " ++ goFmtD v ++ "\n") := rfl

/- ---------------------------------------------------------------------
   tools.go: SnmpGet / SnmpWalk execution traces and line counting
--------------------------------------------------------------------- -/

/-- Number of newline characters in a string. -/
def countNL (s : String) : Nat := s.toList.count '\n'

theorem countNL_append (a b : String) : countNL (a ++ b) = countNL a + countNL b := by
  unfold countNL
  rw [string_toList_append, List.count_append]

theorem countNL_eq_zero {s : String} (h : '\n' ∉ s.toList) : countNL s = 0 := by
  unfold countNL
  exact List.count_eq_zero.mpr h

theorem no_newline_append {a b : String} (ha : '\n' ∉ a.toList) (hb : '\n' ∉ b.toList) :
    '\n' ∉ (a ++ b).toList := by
  rw [string_toList_append]
  intro hx
  rcases List.mem_append.mp hx with h | h
  · exact ha h
  · exact hb h

theorem line_shape {pre : String} (h : '\n' ∉ pre.toList) :
    countNL (pre ++ "\n") = 1 ∧ (pre ++ "\n").toList.getLast? = some '\n' := by
  constructor
  · rw [countNL_append, countNL_eq_zero h]
    decide
  · rw [string_toList_append]
    exact List.getLast?_concat _

theorem digitChar_ne_newline : ∀ d, d < 10 → Char.ofNat (48 + d) ≠ '\n' := by decide

theorem natDecAux_no_newline : ∀ (fuel n : Nat), '\n' ∉ natDecAux fuel n := by
  intro fuel
  induction fuel with
  | zero => intro n; simp [natDecAux]
  | succ m ih =>
    intro n
    cases n with
    | zero => simp [natDecAux]
    | succ k =>
      simp only [natDecAux]
      intro hx
      rcases List.mem_append.mp hx with h | h
      · exact ih _ h
      · have he := List.mem_singleton.mp h
        exact digitChar_ne_newline _ (Nat.mod_lt _ (by omega)) he.symm

theorem natDec_no_newline (n : Nat) : '\n' ∉ (natDec n).toList := by
  unfold natDec
  split_ifs
  · decide
  · exact natDecAux_no_newline _ _

theorem goIntStr_no_newline (i : Int) : '\n' ∉ (goIntStr i).toList := by
  unfold goIntStr
  split_ifs
  · exact no_newline_append (by decide) (natDec_no_newline _)
  · exact natDec_no_newline _

theorem padZeros_no_newline {w : Nat} {l : List Char} (h : '\n' ∉ l) :
    '\n' ∉ padZeros w l := by
  unfold padZeros
  intro hx
  rcases List.mem_append.mp hx with hm | hm
  · have := List.eq_of_mem_replicate hm
    exact absurd this (by decide)
  · exact h hm

theorem padMag_no_newline (i : Int) : '\n' ∉ padMag i := by
  unfold padMag
  split_ifs
  · decide
  · exact natDecAux_no_newline _ _

theorem padInt_no_newline (w : Nat) (i : Int) : '\n' ∉ (padInt w i).toList := by
  unfold padInt
  split_ifs
  · exact no_newline_append (by decide) (padZeros_no_newline (padMag_no_newline i))
  · exact padZeros_no_newline (padMag_no_newline i)

theorem printable_char_ne_newline : ∀ b, b < 127 → 32 ≤ b → Char.ofNat b ≠ '\n' := by
  decide

theorem bytesAsString_printable_no_newline {bs : List Nat}
    (h : ∀ b ∈ bs, 32 ≤ b ∧ b ≤ 126) : '\n' ∉ (bytesAsString bs).toList := by
  intro hx
  rcases List.mem_map.mp hx with ⟨b, hbm, hbe⟩
  have hb := h b hbm
  exact printable_char_ne_newline b (by omega) (by omega) hbe

theorem hexDigit_ne_newline : ∀ d, d < 16 → hexDigit d ≠ '\n' := by decide

theorem hexByte_no_newline (b : Nat) : '\n' ∉ (hexByte b).toList := by
  intro hx
  rcases List.mem_cons.mp hx with he | hx2
  · exact hexDigit_ne_newline _ (Nat.mod_lt _ (by omega)) he.symm
  · rcases List.mem_singleton.mp hx2 with he
    exact hexDigit_ne_newline _ (Nat.mod_lt _ (by omega)) he.symm

theorem hexBytes_no_newline (bs : List Nat) : '\n' ∉ (hexBytes bs).toList := by
  induction bs with
  | nil => simp [hexBytes]
  | cons b rest ih =>
    cases rest with
    | nil => exact hexByte_no_newline b
    | cons c rest2 =>
      exact no_newline_append (no_newline_append (hexByte_no_newline b) (by decide)) ih

/-- Input sanity for line counting: the PDU's name and the `%d`/`%s`
renderings of its value contain no newline character themselves. -/
def pduClean (p : SnmpPDU) : Prop :=
  '\n' ∉ p.name.toList ∧ '\n' ∉ (goFmtD p.value).toList ∧ '\n' ∉ (goFmtS p.value).toList

instance (p : SnmpPDU) : Decidable (pduClean p) := by
  unfold pduClean; infer_instance

/-- Every line `formatValue` emits contains exactly one newline, at its
end, for clean PDUs. -/
theorem formatValue_line {p : SnmpPDU} {s : String} (hf : formatValue p = some s)
    (hc : pduClean p) : countNL s = 1 ∧ s.toList.getLast? = some '\n' := by
  obtain ⟨hn, hd, hs2⟩ := hc
  obtain ⟨name, ty, v⟩ := p
  cases ty with
  | integer =>
    simp only [formatValue, Option.some.injEq] at hf
    subst hf
    refine line_shape (no_newline_append (no_newline_append hn ?_) hd)
    decide
  | ipAddress =>
    simp only [formatValue, Option.some.injEq] at hf
    subst hf
    refine line_shape (no_newline_append (no_newline_append hn ?_) hs2)
    decide
  | noSuchObject =>
    simp only [formatValue, Option.some.injEq] at hf
    subst hf
    constructor
    · rw [countNL_append, countNL_eq_zero hn]
      decide
    · rw [string_toList_append]
      rw [List.getLast?_append_of_ne_nil _ (by decide)]
      decide
  | objectIdentifier =>
    simp only [formatValue, Option.some.injEq] at hf
    subst hf
    refine line_shape (no_newline_append (no_newline_append hn ?_) hs2)
    decide
  | octetString =>
    cases v with
    | vInt n => exact absurd hf (by simp [formatValue])
    | vString t => exact absurd hf (by simp [formatValue])
    | vNil => exact absurd hf (by simp [formatValue])
    | vBytes bs =>
      simp only [formatValue] at hf
      cases e : ((goStringRunes bs).foldl
          (fun acc r => if r < 32 ∨ 126 < r then true else acc) false) with
      | true =>
        rw [e] at hf
        simp only [if_pos, Option.some.injEq, if_true] at hf
        subst hf
        refine line_shape (no_newline_append (no_newline_append hn ?_)
          (hexBytes_no_newline bs))
        decide
      | false =>
        rw [e] at hf
        simp only [Bool.false_eq_true, if_false, Option.some.injEq] at hf
        subst hf
        have hp := (isHex_false_iff bs).mp e
        refine line_shape (no_newline_append (no_newline_append hn ?_)
          (bytesAsString_printable_no_newline hp))
        decide
  | timeTicks =>
    simp only [formatValue, Option.some.injEq] at hf
    subst hf
    simp only [timeTicksLine]
    refine line_shape
      (no_newline_append (no_newline_append (no_newline_append (no_newline_append
        (no_newline_append (no_newline_append (no_newline_append (no_newline_append
          (no_newline_append (no_newline_append (no_newline_append (no_newline_append
            hn ?_) (goIntStr_no_newline _)) ?_) (padInt_no_newline _ _)) ?_)
              (padInt_no_newline _ _)) ?_) (padInt_no_newline _ _)) ?_)
                (padInt_no_newline _ _)) ?_) (padInt_no_newline _ _))
    all_goals decide
  | noSuchInstance =>
    simp only [formatValue, Option.some.injEq] at hf
    subst hf
    refine line_shape (no_newline_append (no_newline_append (no_newline_append
      (no_newline_append hn ?_) ?_) ?_) hd)
    all_goals decide

/-- Observable events of one tool invocation, in execution order: the
`g.Connect()` call, the deferred `g.Conn.Close()`, and the return (with
an error or the text body); `panicked` marks the Go panic exit (a
formatting type-assertion failure), on which deferred calls still run. -/
inductive GoEvent
  | connectCall
  | connClose
  | returnErr (e : String)
  | returnOk (body : String)
  | panicked
deriving DecidableEq, Repr

/-- The lines `formatValue` appends for a PDU list, in order (`none`
when some PDU would make the Go code panic). -/
def formatLines (pdus : List SnmpPDU) : Option (List String) :=
  pdus.mapM formatValue

/-- The `strings.Builder` accumulation of the formatted lines. -/
def buildBody (lines : List String) : String :=
  lines.foldl (fun sb l => sb ++ l) ""

/-- Trace of one `SnmpGet` call (tools.go lines 27-51), given the
outcomes of the network operations: `connectErr` is the error
`g.Connect()` returns (if any) and `getRes` the result of `g.Get`.  The
code checks the connect error and returns BEFORE installing
`defer g.Conn.Close()`; after a successful connect the deferred close
runs before every return. -/
def snmpGetRun (connectErr : Option String)
    (getRes : Except String (List SnmpPDU)) : List GoEvent :=
  match connectErr with
  | some e => [.connectCall, .returnErr ("connect() err: '" ++ e ++ "'")]
  | none =>
    match getRes with
    | .error e => [.connectCall, .connClose, .returnErr ("snmpget() err: '" ++ e ++ "'")]
    | .ok pdus =>
      match formatLines pdus with
      | some lines => [.connectCall, .connClose, .returnOk (buildBody lines)]
      | none => [.connectCall, .connClose, .panicked]

/-- Trace of one `SnmpWalk` call (tools.go lines 54-75), analogous to
`snmpGetRun`; `walkRes` abstracts `g.Walk` as the complete PDU sequence
the callback receives (or the walk error). -/
def snmpWalkRun (connectErr : Option String)
    (walkRes : Except String (List SnmpPDU)) : List GoEvent :=
  match connectErr with
  | some e => [.connectCall, .returnErr ("connect() err: '" ++ e ++ "'")]
  | none =>
    match walkRes with
    | .error e => [.connectCall, .connClose, .returnErr ("walk() err: '" ++ e ++ "'")]
    | .ok pdus =>
      match formatLines pdus with
      | some lines => [.connectCall, .connClose, .returnOk (buildBody lines)]
      | none => [.connectCall, .connClose, .panicked]

theorem formatLines_spec : ∀ (pdus : List SnmpPDU) (lines : List String),
    formatLines pdus = some lines →
    lines.length = pdus.length ∧
    ∀ l ∈ lines, ∃ p ∈ pdus, formatValue p = some l := by
  intro pdus
  induction pdus with
  | nil =>
    intro lines h
    simp only [formatLines, List.mapM_nil, Option.pure_def, Option.some.injEq] at h
    subst h
    simp
  | cons p rest ih =>
    intro lines h
    simp only [formatLines, List.mapM_cons] at h
    cases hf : formatValue p with
    | none => rw [hf] at h; simp at h
    | some s =>
      rw [hf] at h
      cases hr : rest.mapM formatValue with
      | none => rw [hr] at h; simp at h
      | some ls =>
        rw [hr] at h
        simp at h
        subst h
        obtain ⟨hlen, hmem⟩ := ih ls hr
        refine ⟨by simp [hlen], ?_⟩
        intro l hl
        rcases List.mem_cons.mp hl with he | hm
        · exact ⟨p, List.mem_cons_self _ _, he ▸ hf⟩
        · obtain ⟨q, hq, hqf⟩ := hmem l hm
          exact ⟨q, List.mem_cons_of_mem _ hq, hqf⟩

theorem buildBody_foldl_countNL : ∀ (lines : List String) (acc : String),
    (∀ l ∈ lines, countNL l = 1) →
    countNL (lines.foldl (fun sb l => sb ++ l) acc) = countNL acc + lines.length := by
  intro lines
  induction lines with
  | nil => intro acc _; simp
  | cons l rest ih =>
    intro acc h
    simp only [List.foldl_cons, List.length_cons]
    rw [ih (acc ++ l) (fun x hx => h x (List.mem_cons_of_mem _ hx))]
    rw [countNL_append, h l (List.mem_cons_self _ _)]
    omega

theorem buildBody_countNL {lines : List String} (h : ∀ l ∈ lines, countNL l = 1) :
    countNL (buildBody lines) = lines.length := by
  unfold buildBody
  rw [buildBody_foldl_countNL lines "" h]
  have h0 : countNL "" = 0 := rfl
  omega

/-- C6: a WALK that discovers `k` PDUs returns a text body that is the
in-order concatenation of one newline-terminated line per PDU — `k`
lines, `k` newlines — and a walk of an empty subtree returns an empty
body with no error. -/
theorem c6_walk_line_per_pdu :
    snmpWalkRun none (.ok []) = [.connectCall, .connClose, .returnOk ""] ∧
    (∀ (pdus : List SnmpPDU) (lines : List String),
      formatLines pdus = some lines →
      (∀ p ∈ pdus, pduClean p) →
      snmpWalkRun none (.ok pdus) =
        [.connectCall, .connClose, .returnOk (buildBody lines)] ∧
      lines.length = pdus.length ∧
      countNL (buildBody lines) = pdus.length ∧
      ∀ l ∈ lines, countNL l = 1 ∧ l.toList.getLast? = some '\n') := by
  constructor
  · rfl
  · intro pdus lines hf hc
    have hspec := formatLines_spec pdus lines hf
    have hone : ∀ l ∈ lines, countNL l = 1 ∧ l.toList.getLast? = some '\n' := by
      intro l hl
      obtain ⟨p, hp, hpf⟩ := hspec.2 l hl
      exact formatValue_line hpf (hc p hp)
    refine ⟨?_, hspec.1, ?_, hone⟩
    · simp [snmpWalkRun, hf]
    · rw [buildBody_countNL (fun l hl => (hone l hl).1), hspec.1]

/-- C6 witness: a concrete two-PDU walk yields exactly the two expected
lines. -/
theorem c6_walk_line_per_pdu_witness :
    snmpWalkRun none (.ok [⟨".1", .integer, .vInt 5⟩, ⟨".2", .octetString, .vBytes [0]⟩]) =
      [.connectCall, .connClose,
        .returnOk (buildBody [".1 = INTEGER: 5\n", ".2 = Hex-STRING: 00\n"])] ∧
    countNL (buildBody [".1 = INTEGER: 5\n", ".2 = Hex-STRING: 00\n"]) = 2 := by
  have h := c6_walk_line_per_pdu.2
    [⟨".1", .integer, .vInt 5⟩, ⟨".2", .octetString, .vBytes [0]⟩]
    [".1 = INTEGER: 5\n", ".2 = Hex-STRING: 00\n"] (by decide) (by decide)
  exact ⟨h.1, h.2.2.1⟩

/-- C8 counterexample: on a connection-establishment failure the
operation returns without releasing the connection — the deferred
`g.Conn.Close()` is installed only after the connect-error check, so no
close event occurs on that exit path (for Get and Walk alike). -/
theorem c8_connect_failure_no_close_counterexample :
    snmpGetRun (some "i/o timeout") (.ok []) =
      [.connectCall, .returnErr "connect() err: 'i/o timeout'"] ∧
    GoEvent.connClose ∉ snmpGetRun (some "i/o timeout") (.ok []) ∧
    snmpWalkRun (some "i/o timeout") (.ok []) =
      [.connectCall, .returnErr "connect() err: 'i/o timeout'"] ∧
    GoEvent.connClose ∉ snmpWalkRun (some "i/o timeout") (.ok []) := by
  refine ⟨rfl, by decide, rfl, by decide⟩

/-- C8 (amended): after a successful connect, the deferred close runs
before every exit (request failure, success, or formatting panic) in
both Get and Walk; but on a connect failure both operations return
immediately, without a close — the deferred release is installed only
after the connect-error check. -/
theorem c8_close_only_after_successful_connect :
    (∀ getRes : Except String (List SnmpPDU),
      ∃ ev, snmpGetRun none getRes = [.connectCall, .connClose, ev]) ∧
    (∀ (e : String) (getRes : Except String (List SnmpPDU)),
      snmpGetRun (some e) getRes =
        [.connectCall, .returnErr ("connect() err: '" ++ e ++ "'")]) ∧
    (∀ walkRes : Except String (List SnmpPDU),
      ∃ ev, snmpWalkRun none walkRes = [.connectCall, .connClose, ev]) ∧
    (∀ (e : String) (walkRes : Except String (List SnmpPDU)),
      snmpWalkRun (some e) walkRes =
        [.connectCall, .returnErr ("connect() err: '" ++ e ++ "'")]) := by
  refine ⟨?_, fun e res => rfl, ?_, fun e res => rfl⟩
  · intro res
    cases res with
    | error e => exact ⟨_, rfl⟩
    | ok pdus =>
      cases h : formatLines pdus with
      | some lines => exact ⟨.returnOk (buildBody lines), by simp [snmpGetRun, h]⟩
      | none => exact ⟨.panicked, by simp [snmpGetRun, h]⟩
  · intro res
    cases res with
    | error e => exact ⟨_, rfl⟩
    | ok pdus =>
      cases h : formatLines pdus with
      | some lines => exact ⟨.returnOk (buildBody lines), by simp [snmpWalkRun, h]⟩
      | none => exact ⟨.panicked, by simp [snmpWalkRun, h]⟩
